import Mathlib

/-!
Shallow embedding of the temporal-cognition core (priority scheduler, task
estimator with confidence math, temporal memory index) from the TypeScript
sources, together with theorems settling the specification claims.

Numbers: the scheduler and the pure rational arithmetic are embedded over ℚ
(every operation involved is exact on the values of interest); the
confidence/variance math uses `Real.exp`/`Real.sqrt` and lives over ℝ, as in
the source (`Math.exp`, `Math.sqrt`, `Math.pow`).  JavaScript `Math.round`
rounds half toward positive infinity and is embedded as `fun x => ⌊x + 1/2⌋`.
Nondeterministic inputs of the source (wall-clock `Date.now()`, random /
hashed ids) are threaded as explicit parameters.
-/

namespace TemporalCognition

/-- `MS_PER_HOUR` from constants.ts. -/
def MS_PER_HOUR : ℚ := 3600000

/-- `MS_PER_DAY` from constants.ts. -/
def MS_PER_DAY : ℚ := 86400000

/-- JavaScript `Math.round`: round half toward +∞, i.e. `⌊x + 1/2⌋`. -/
def jsRound (x : ℚ) : ℤ := ⌊x + 1/2⌋

/-- Task status enum from types.ts. -/
inductive TaskStatus where
  | pending
  | inProgress
  | completed
  | deferred
  | cancelled
deriving DecidableEq, Repr

/-- The `DurationEstimate` shape as consumed by the scheduler (rational
fields; the scheduler reads only `expectedMs`). -/
structure DurationEstimate where
  minimumMs : ℚ
  expectedMs : ℚ
  maximumMs : ℚ
  confidence : ℚ
  basedOnSamples : ℕ
deriving DecidableEq, Repr

/-- `ScheduledTask` from types.ts (the fields used by the scheduler logic;
`channel`/`sessionId` bookkeeping strings are irrelevant to every claim and
are represented by `tags`-like plain data only where read). -/
structure ScheduledTask where
  id : String
  title : String
  description : Option String
  deadline : Option ℚ
  estimatedDuration : DurationEstimate
  priority : ℤ
  urgency : ℚ
  importance : ℚ
  status : TaskStatus
  createdAt : ℚ
  updatedAt : ℚ
  completedAt : Option ℚ
  tags : List String
deriving DecidableEq, Repr

/-- Scheduler configuration (the four weights; `enabled` is never read by the
scheduling logic itself). -/
structure PrioritySchedulerConfig where
  urgencyWeight : ℚ
  importanceWeight : ℚ
  effortWeight : ℚ
  deadlineProximityWeight : ℚ
deriving DecidableEq, Repr

/-- The constructor defaults 0.4/0.3/0.2/0.1. -/
def defaultSchedulerConfig : PrioritySchedulerConfig :=
  { urgencyWeight := 0.4
    importanceWeight := 0.3
    effortWeight := 0.2
    deadlineProximityWeight := 0.1 }

/-- Deadline proximity step function from `calculatePriority`.  A present but
zero deadline is falsy in `if (deadline)`, hence the extra `d = 0` case. -/
def deadlineScore (deadline : Option ℚ) (expectedMs now : ℚ) : ℚ :=
  match deadline with
  | none => 0.5
  | some d =>
    if d = 0 then 0.5
    else
      let timeUntilDeadline := d - now
      if timeUntilDeadline ≤ 0 then 1.0
      else if timeUntilDeadline < expectedMs then 0.95
      else if timeUntilDeadline < MS_PER_HOUR then 0.9
      else if timeUntilDeadline < MS_PER_HOUR * 4 then 0.8
      else if timeUntilDeadline < MS_PER_DAY then 0.6
      else 0.3

/-- `calculatePriority` from priority-scheduler.ts. -/
def calculatePriority (cfg : PrioritySchedulerConfig) (t : ScheduledTask) (now : ℚ) : ℤ :=
  let urgencyScore := t.urgency / 100
  let importanceScore := t.importance / 100
  let effortScore := 1 - min 1 (t.estimatedDuration.expectedMs / MS_PER_DAY)
  let ds := deadlineScore t.deadline t.estimatedDuration.expectedMs now
  let p := (urgencyScore * cfg.urgencyWeight +
            importanceScore * cfg.importanceWeight +
            effortScore * cfg.effortWeight +
            ds * cfg.deadlineProximityWeight) * 100
  jsRound (min 100 (max 0 p))

/-- `AddTaskInput` from types.ts. -/
structure AddTaskInput where
  title : String
  description : Option String := none
  deadline : Option ℚ := none
  estimatedDuration : DurationEstimate
  urgency : ℚ
  importance : ℚ
  tags : List String := []
deriving DecidableEq, Repr

/-- `sortTasks`: stable sort descending by priority (JavaScript
`Array.prototype.sort` with comparator `(a, b) => b.priority - a.priority`
is a stable sort; elements compare "in order" when `b.priority ≤ a.priority`). -/
def sortTasks (s : List ScheduledTask) : List ScheduledTask :=
  s.mergeSort (fun a b => decide (b.priority ≤ a.priority))

/-- `addTask`: build the task (priority computed from the inputs), push it,
re-sort.  `now` is `Date.now()` and `id` the random-suffixed id, both
externalized.  Returns the created task and the new task collection. -/
def addTask (cfg : PrioritySchedulerConfig) (s : List ScheduledTask)
    (input : AddTaskInput) (now : ℚ) (id : String) :
    ScheduledTask × List ScheduledTask :=
  let task0 : ScheduledTask :=
    { id := id
      title := input.title
      description := input.description
      deadline := input.deadline
      estimatedDuration := input.estimatedDuration
      priority := 0
      urgency := input.urgency
      importance := input.importance
      status := .pending
      createdAt := now
      updatedAt := now
      completedAt := none
      tags := input.tags }
  let task := { task0 with priority := calculatePriority cfg task0 now }
  (task, sortTasks (s ++ [task]))

/-- The `Partial` update record accepted by `updateTask`. -/
structure TaskUpdates where
  urgency : Option ℚ := none
  importance : Option ℚ := none
  deadline : Option ℚ := none
  title : Option String := none
  description : Option String := none
  tags : Option (List String) := none
deriving DecidableEq, Repr

/-- `Object.assign(task, updates)` for the allowed keys. -/
def applyUpdates (t : ScheduledTask) (u : TaskUpdates) : ScheduledTask :=
  { t with
    urgency := u.urgency.getD t.urgency
    importance := u.importance.getD t.importance
    deadline := match u.deadline with | some d => some d | none => t.deadline
    title := u.title.getD t.title
    description := match u.description with | some d => some d | none => t.description
    tags := u.tags.getD t.tags }

/-- In-place mutation through the reference returned by `find`: replace the
first task with the given id. -/
def replaceFirst (s : List ScheduledTask) (taskId : String)
    (f : ScheduledTask → ScheduledTask) : List ScheduledTask :=
  match s with
  | [] => []
  | t :: rest =>
    if t.id = taskId then f t :: rest else t :: replaceFirst rest taskId f

/-- `updateTask`: find the task, assign the updates, stamp `updatedAt`,
recompute priority, re-sort.  Returns the updated task (or `none`) and the
new collection. -/
def updateTask (cfg : PrioritySchedulerConfig) (s : List ScheduledTask)
    (taskId : String) (u : TaskUpdates) (now : ℚ) :
    Option ScheduledTask × List ScheduledTask :=
  match s.find? (fun t => decide (t.id = taskId)) with
  | none => (none, s)
  | some t =>
    let t1 := applyUpdates t u
    let t2 := { t1 with updatedAt := now }
    let t' := { t2 with priority := calculatePriority cfg t2 now }
    (some t', sortTasks (replaceFirst s taskId (fun _ => t')))

/-- `updateTaskStatus`: set status and `updatedAt`; stamp `completedAt` when
completing.  No re-sort, no priority recomputation. -/
def updateTaskStatus (s : List ScheduledTask) (taskId : String)
    (status : TaskStatus) (now : ℚ) :
    Option ScheduledTask × List ScheduledTask :=
  match s.find? (fun t => decide (t.id = taskId)) with
  | none => (none, s)
  | some t =>
    let t' :=
      { t with
        status := status
        updatedAt := now
        completedAt := if status = .completed then some now else t.completedAt }
    (some t', replaceFirst s taskId (fun _ => t'))

/-- `refreshPriorities`: recompute priority of every `pending` task against
the current wall-clock, then re-sort. -/
def refreshPriorities (cfg : PrioritySchedulerConfig) (s : List ScheduledTask)
    (now : ℚ) : List ScheduledTask :=
  sortTasks (s.map (fun t =>
    if t.status = .pending then { t with priority := calculatePriority cfg t now } else t))

/-- `getTaskList`: refresh, then return a sorted copy.  Returns the list
handed to the caller and the (refreshed, re-sorted) stored collection. -/
def getTaskList (cfg : PrioritySchedulerConfig) (s : List ScheduledTask)
    (now : ℚ) : List ScheduledTask × List ScheduledTask :=
  let s' := refreshPriorities cfg s now
  (sortTasks s', s')

/-- `getNextTask`: refresh, then the highest-priority pending task. -/
def getNextTask (cfg : PrioritySchedulerConfig) (s : List ScheduledTask)
    (now : ℚ) : Option ScheduledTask × List ScheduledTask :=
  let s' := refreshPriorities cfg s now
  (((s'.filter (fun t => decide (t.status = .pending))).mergeSort
      (fun a b => decide (b.priority ≤ a.priority))).head?, s')

/-- `cleanupOldTasks`: keep every pending/in-progress task; drop other tasks
whose `updatedAt` is not after the cutoff.  Returns the removed count and the
new collection. -/
def cleanupOldTasks (s : List ScheduledTask) (maxAgeDays : ℚ) (now : ℚ) :
    ℕ × List ScheduledTask :=
  let cutoff := now - maxAgeDays * MS_PER_DAY
  let s' := s.filter (fun t =>
    decide (t.status = .pending) || decide (t.status = .inProgress) ||
    decide (t.updatedAt > cutoff))
  (s.length - s'.length, s')

/-- Evaluation helper: `mergeSort` on a two-element list. -/
theorem mergeSort_pair {α : Type _} (le : α → α → Bool) (a b : α) :
    [a, b].mergeSort le = if le a b then [a, b] else [b, a] := by
  rw [List.mergeSort]
  simp [List.splitInTwo, List.merge]

/-- The scenario estimate of the spec: `expectedMs = 600000`. -/
def c1estimate : DurationEstimate :=
  { minimumMs := 400000
    expectedMs := 600000
    maximumMs := 900000
    confidence := 0.3
    basedOnSamples := 0 }

/-- The C1 scenario input: urgency 90, importance 80, no deadline. -/
def c1input : AddTaskInput :=
  { title := "t", estimatedDuration := c1estimate, urgency := 90, importance := 80 }

/-- C1 (counterexample): with urgency 90, importance 80, no deadline,
`expectedMs = 600000` and the default weights, the task returned by `addTask`
has priority 85, not 79: the weighted score is
`(0.9*0.4 + 0.8*0.3 + (143/144)*0.2 + 0.5*0.1)*100 = 84.8611…`, not 78.5. -/
theorem c1_addTask_priority_counterexample :
    (addTask defaultSchedulerConfig [] c1input 0 "a").1.priority = 85 ∧
      (addTask defaultSchedulerConfig [] c1input 0 "a").1.priority ≠ 79 := by
  constructor <;>
    norm_num [addTask, calculatePriority, deadlineScore, jsRound, c1input, c1estimate,
      defaultSchedulerConfig, MS_PER_DAY, MS_PER_HOUR, min_def, max_def]

/-- C1 (amended): calling `addTask` with urgency 90, importance 80, no
deadline, `estimatedDuration.expectedMs = 600000` and the default weights
(0.4/0.3/0.2/0.1) returns a task whose priority is 85 — the rounding of the
weighted score 84.8611…, which is not a half-integer, so round-half-away-
from-zero and banker's rounding agree on it; this holds for every prior task
collection, wall-clock time and generated id. -/
theorem c1_addTask_priority (s : List ScheduledTask) (now : ℚ) (id : String) :
    (addTask defaultSchedulerConfig s c1input now id).1.priority = 85 := by
  norm_num [addTask, calculatePriority, deadlineScore, jsRound, c1input, c1estimate,
    defaultSchedulerConfig, MS_PER_DAY, MS_PER_HOUR, min_def, max_def]

/-- Every priority produced by `calculatePriority` lies in [0, 100]: the
weighted score is clamped to [0, 100] before rounding. -/
theorem jsRound_bounds_of_mem_Icc {x : ℚ} (h0 : 0 ≤ x) (h1 : x ≤ 100) :
    0 ≤ jsRound x ∧ jsRound x ≤ 100 := by
  unfold jsRound
  constructor
  · rw [Int.le_floor]
    push_cast
    linarith
  · have : (⌊x + 1/2⌋ : ℤ) < 101 := by
      rw [Int.floor_lt]
      push_cast
      linarith
    omega

/-- Every priority produced by `calculatePriority` lies in [0, 100]: the
weighted score is clamped to [0, 100] before rounding. -/
theorem calculatePriority_bounds (cfg : PrioritySchedulerConfig)
    (t : ScheduledTask) (now : ℚ) :
    0 ≤ calculatePriority cfg t now ∧ calculatePriority cfg t now ≤ 100 := by
  unfold calculatePriority
  exact jsRound_bounds_of_mem_Icc
    (le_min (by norm_num) (le_max_left 0 _)) (min_le_left _ _)

/-- The store invariant of claim C10: every task's priority lies in [0,100]. -/
def PriorityInv (s : List ScheduledTask) : Prop :=
  ∀ t ∈ s, 0 ≤ t.priority ∧ t.priority ≤ 100

theorem priorityInv_sortTasks {s : List ScheduledTask} (h : PriorityInv s) :
    PriorityInv (sortTasks s) := by
  intro t ht
  exact h t (List.mem_mergeSort.mp ht)

theorem mem_replaceFirst {s : List ScheduledTask} {taskId : String}
    {f : ScheduledTask → ScheduledTask} {x : ScheduledTask}
    (hx : x ∈ replaceFirst s taskId f) : x ∈ s ∨ ∃ t ∈ s, x = f t := by
  induction s with
  | nil => simp [replaceFirst] at hx
  | cons t rest ih =>
    rw [replaceFirst] at hx
    by_cases hid : t.id = taskId
    · rw [if_pos hid] at hx
      rcases List.mem_cons.mp hx with h1 | h1
      · exact Or.inr ⟨t, List.mem_cons_self t rest, h1⟩
      · exact Or.inl (List.mem_cons_of_mem t h1)
    · rw [if_neg hid] at hx
      rcases List.mem_cons.mp hx with h1 | h1
      · exact Or.inl (h1 ▸ List.mem_cons_self t rest)
      · rcases ih h1 with h2 | ⟨t', ht', he⟩
        · exact Or.inl (List.mem_cons_of_mem t h2)
        · exact Or.inr ⟨t', List.mem_cons_of_mem t ht', he⟩

theorem priorityInv_refreshPriorities (cfg : PrioritySchedulerConfig)
    {s : List ScheduledTask} (now : ℚ) (h : PriorityInv s) :
    PriorityInv (refreshPriorities cfg s now) := by
  apply priorityInv_sortTasks
  intro t ht
  rcases List.mem_map.mp ht with ⟨t0, ht0, he⟩
  by_cases hst : t0.status = .pending
  · rw [if_pos hst] at he
    rw [← he]
    exact calculatePriority_bounds cfg t0 now
  · rw [if_neg hst] at he
    exact he ▸ h t0 ht0

/-- C10: after every scheduler operation (`addTask`, `updateTask`,
`updateTaskStatus`, `getNextTask`, `getTaskList`, `cleanupOldTasks`), every
task in the store has priority in [0, 100] — for arbitrary urgency,
importance, deadline and duration inputs (no validation is performed),
because `calculatePriority` clamps the weighted score to [0, 100] before
rounding. -/
theorem c10_priority_invariant (cfg : PrioritySchedulerConfig)
    (s : List ScheduledTask) (input : AddTaskInput) (now : ℚ) (id taskId : String)
    (u : TaskUpdates) (status : TaskStatus) (maxAgeDays : ℚ)
    (h : PriorityInv s) :
    PriorityInv (addTask cfg s input now id).2 ∧
      PriorityInv (updateTask cfg s taskId u now).2 ∧
      PriorityInv (updateTaskStatus s taskId status now).2 ∧
      PriorityInv (getNextTask cfg s now).2 ∧
      PriorityInv (getTaskList cfg s now).2 ∧
      PriorityInv (cleanupOldTasks s maxAgeDays now).2 := by
  refine ⟨?_, ?_, ?_, ?_, ?_, ?_⟩
  · apply priorityInv_sortTasks
    intro t ht
    rcases List.mem_append.mp ht with h1 | h1
    · exact h t h1
    · rcases List.mem_singleton.mp h1 with rfl
      exact calculatePriority_bounds cfg _ now
  · unfold updateTask
    cases hf : s.find? (fun t => decide (t.id = taskId)) with
    | none => exact h
    | some t =>
      apply priorityInv_sortTasks
      intro x hx
      rcases mem_replaceFirst hx with h1 | ⟨t', _, he⟩
      · exact h x h1
      · exact he ▸ calculatePriority_bounds cfg _ now
  · unfold updateTaskStatus
    cases hf : s.find? (fun t => decide (t.id = taskId)) with
    | none => exact h
    | some t =>
      intro x hx
      rcases mem_replaceFirst hx with h1 | ⟨t', ht', he⟩
      · exact h x h1
      · have hts := h t (List.mem_of_find?_eq_some hf)
        subst he
        simpa using hts
  · exact priorityInv_refreshPriorities cfg now h
  · exact priorityInv_refreshPriorities cfg now h
  · intro t ht
    exact h t (List.mem_of_mem_filter ht)

/-- C10 witness: the invariant holds concretely starting from the empty
store with out-of-range inputs (urgency 250, importance −40). -/
theorem c10_priority_invariant_witness :
    PriorityInv (addTask defaultSchedulerConfig []
      { title := "w", estimatedDuration := c1estimate, urgency := 250,
        importance := -40 } 0 "a").2 :=
  (c10_priority_invariant defaultSchedulerConfig []
    { title := "w", estimatedDuration := c1estimate, urgency := 250, importance := -40 }
    0 "a" "b" {} .pending 30 (by intro t ht; simp at ht)).1

theorem descByKey_trans (f : ScheduledTask → ℤ) :
    ∀ a b c : ScheduledTask, (fun a b => decide (f b ≤ f a)) a b →
      (fun a b => decide (f b ≤ f a)) b c → (fun a b => decide (f b ≤ f a)) a c := by
  intro a b c hab hbc
  simp only [decide_eq_true_eq] at *
  exact le_trans hbc hab

theorem descByKey_total (f : ScheduledTask → ℤ) :
    ∀ a b : ScheduledTask,
      ((fun a b => decide (f b ≤ f a)) a b || (fun a b => decide (f b ≤ f a)) b a) := by
  intro a b
  simpa using le_total (f b) (f a)

/-- Stability of the stable descending sort: for every key value `p`, the
elements whose key equals `p` appear in the sorted output exactly in their
input order. -/
theorem mergeSort_filter_key (f : ScheduledTask → ℤ) (l : List ScheduledTask) (p : ℤ) :
    (l.mergeSort (fun a b => decide (f b ≤ f a))).filter (fun t => decide (f t = p)) =
      l.filter (fun t => decide (f t = p)) := by
  have hc : (l.filter (fun t => decide (f t = p))).Pairwise
      (fun a b => ((fun a b => decide (f b ≤ f a)) a b : Bool) = true) := by
    apply List.pairwise_of_forall_mem_list
    intro a ha b hb
    have ha' : f a = p := by simpa using List.of_mem_filter ha
    have hb' : f b = p := by simpa using List.of_mem_filter hb
    simp [ha', hb']
  have h1 : List.Sublist (l.filter (fun t => decide (f t = p)))
      (l.mergeSort (fun a b => decide (f b ≤ f a))) :=
    List.sublist_mergeSort (descByKey_trans f) (descByKey_total f) hc (List.filter_sublist l)
  have h2 := h1.filter (fun t => decide (f t = p))
  rw [List.filter_filter] at h2
  simp only [Bool.and_self] at h2
  have h3 : List.Perm
      ((l.mergeSort (fun a b => decide (f b ≤ f a))).filter (fun t => decide (f t = p)))
      (l.filter (fun t => decide (f t = p))) :=
    (List.mergeSort_perm l _).filter _
  exact ((h2.eq_of_length h3.length_eq.symm)).symm

/-- The recomputation `refreshPriorities` performs before sorting. -/
def refreshTask (cfg : PrioritySchedulerConfig) (now : ℚ) (t : ScheduledTask) :
    ScheduledTask :=
  if t.status = .pending then { t with priority := calculatePriority cfg t now } else t

/-- C3 (amended): `getTaskList` returns the tasks sorted descending by their
freshly recomputed priority (recomputed for `pending` tasks), and tasks with
equal priority appear in the order of the underlying stored collection at
call time (stable sort).  That stored order coincides with insertion order
only until a priority change re-sorts the collection; it is not insertion
order in general (see the counterexample). -/
theorem c3_getTaskList_sorted_stable (cfg : PrioritySchedulerConfig)
    (s : List ScheduledTask) (now : ℚ) (p : ℤ) :
    ((getTaskList cfg s now).1).Pairwise (fun a b => b.priority ≤ a.priority) ∧
      ((getTaskList cfg s now).1).filter (fun t => decide (t.priority = p)) =
        (s.map (refreshTask cfg now)).filter (fun t => decide (t.priority = p)) := by
  constructor
  · have := @List.sorted_mergeSort ScheduledTask
      (fun a b : ScheduledTask => decide (b.priority ≤ a.priority))
      (descByKey_trans (fun t => t.priority)) (descByKey_total (fun t => t.priority))
      (refreshPriorities cfg s now)
    refine this.imp ?_
    intro a b hab
    exact of_decide_eq_true hab
  · show (sortTasks (refreshPriorities cfg s now)).filter _ = _
    unfold sortTasks refreshPriorities sortTasks
    rw [mergeSort_filter_key (fun t => t.priority), mergeSort_filter_key (fun t => t.priority)]
    rfl

/-- A one-day expected duration: effort score 0, so priority =
`round((0.4u + 0.3i)/100*100 + 5)` with no deadline. -/
def c3estimate : DurationEstimate :=
  { minimumMs := 86400000
    expectedMs := 86400000
    maximumMs := 86400000
    confidence := 0.3
    basedOnSamples := 0 }

/-- State after adding task "a" (urgency 50, importance 50 → priority 40). -/
def c3s1 : List ScheduledTask :=
  (addTask defaultSchedulerConfig []
    { title := "A", estimatedDuration := c3estimate, urgency := 50, importance := 50 }
    0 "a").2

/-- State after also adding task "b" (urgency 100 → priority 60). -/
def c3s2 : List ScheduledTask :=
  (addTask defaultSchedulerConfig c3s1
    { title := "B", estimatedDuration := c3estimate, urgency := 100, importance := 50 }
    0 "b").2

/-- State after lowering "b"'s urgency to 50 (priority back to 40). -/
def c3s3 : List ScheduledTask :=
  (updateTask defaultSchedulerConfig c3s2 "b" { urgency := some 50 } 0).2

/-- C3 (counterexample): after `addTask "a"`, `addTask "b"`,
`updateTask "b"` (lowering its urgency), both tasks have priority 40, yet
`getTaskList` returns "b" before "a" although "a" was inserted first: the
tie is broken by the stored collection order (which the intermediate sort
changed to ["b", "a"]), not by insertion order. -/
theorem c3_tie_order_counterexample :
    ((getTaskList defaultSchedulerConfig c3s3 0).1.map (fun t => t.id)) = ["b", "a"] ∧
      ((getTaskList defaultSchedulerConfig c3s3 0).1.map (fun t => t.priority)) = [40, 40] ∧
      (c3s1.map (fun t => t.id)) = ["a"] := by
  refine ⟨?_, ?_, ?_⟩ <;>
    norm_num [getTaskList, refreshPriorities, sortTasks, c3s3, c3s2, c3s1, updateTask,
      addTask, replaceFirst, applyUpdates, calculatePriority, deadlineScore, jsRound,
      defaultSchedulerConfig, c3estimate, MS_PER_DAY, MS_PER_HOUR, min_def, max_def,
      mergeSort_pair, List.mergeSort_singleton, List.mergeSort_nil, List.find?]

/-- The nine-value task category enum from types.ts. -/
inductive TaskCategory where
  | research
  | coding
  | writing
  | analysis
  | communication
  | scheduling
  | fileOperations
  | webBrowsing
  | other
deriving DecidableEq, Repr

/-- The five-value task complexity enum from types.ts. -/
inductive TaskComplexity where
  | trivial
  | simple
  | moderate
  | complex
  | highlyComplex
deriving DecidableEq, Repr

/-- `BASE_DURATION_MS` lookup table from constants.ts. -/
def BASE_DURATION_MS : TaskCategory → ℚ
  | .research => 300000
  | .coding => 600000
  | .writing => 480000
  | .analysis => 420000
  | .communication => 60000
  | .scheduling => 120000
  | .fileOperations => 30000
  | .webBrowsing => 180000
  | .other => 300000

/-- `COMPLEXITY_MULTIPLIERS` lookup table from constants.ts. -/
def COMPLEXITY_MULTIPLIERS : TaskComplexity → ℚ
  | .trivial => 0.25
  | .simple => 0.5
  | .moderate => 1.0
  | .complex => 2.0
  | .highlyComplex => 4.0

/-- `TaskHistoryEntry` from types.ts. -/
structure TaskHistoryEntry where
  taskId : String
  category : TaskCategory
  complexity : TaskComplexity
  estimatedMs : ℚ
  actualMs : ℚ
  accuracy : ℚ
  timestamp : ℚ
  sessionId : String
deriving DecidableEq, Repr

/-- `ActiveTask` from types.ts. -/
structure ActiveTask where
  taskId : String
  category : TaskCategory
  complexity : TaskComplexity
  startTime : ℚ
  estimatedMs : ℚ
deriving DecidableEq, Repr

/-- `calculateAccuracy` from confidence.ts: 0 when `actualMs = 0`; otherwise
the estimate/actual ratio, penalized at half rate on the overestimate side. -/
def calculateAccuracy (estimatedMs actualMs : ℚ) : ℚ :=
  if actualMs = 0 then 0
  else
    let r := estimatedMs / actualMs
    if r ≥ 1 then max 0 (1 - (r - 1) * 0.5)
    else max 0 r

/-- `bayesianUpdate` from confidence.ts. -/
def bayesianUpdate (priorMean priorConfidence observedValue : ℚ)
    (learningRate : ℚ) : ℚ × ℚ :=
  let weight := priorConfidence * (1 - learningRate)
  let newWeight := learningRate
  let newMean := (priorMean * weight + observedValue * newWeight) / (weight + newWeight)
  let newConfidence := min 0.95 (priorConfidence + learningRate * 0.1)
  (newMean, newConfidence)

/-- A learned baseline: `{ mean, confidence }`. -/
structure Baseline where
  mean : ℚ
  confidence : ℚ
deriving DecidableEq, Repr

/-- Estimator configuration (the fields the algorithms read). -/
structure TaskEstimatorConfig where
  learningRate : ℚ
  confidenceDecayDays : ℚ
  minSamplesForEstimate : ℚ
deriving DecidableEq, Repr

/-- Constructor defaults: learning rate 0.1, decay 30 days, 3 samples. -/
def defaultEstimatorConfig : TaskEstimatorConfig :=
  { learningRate := 0.1, confidenceDecayDays := 30, minSamplesForEstimate := 3 }

/-- The estimator's slice of the state tree.  `activeTasks` is a JavaScript
object keyed by task id, whose `Object.values` iteration order is insertion
order: it is embedded as an insertion-ordered list with unique ids.
`learnedBaselines` is the in-memory `Map` keyed by
(category, complexity). -/
structure EstimatorState where
  activeTasks : List ActiveTask
  taskHistory : List TaskHistoryEntry
  learnedBaselines : TaskCategory → TaskComplexity → Option Baseline
  bootTime : ℚ

/-- The completion step shared by both branches of `completeTask`: compute
elapsed time and accuracy, append the (1000-bounded) history entry, update
the learned baseline. -/
def finishTask (cfg : TaskEstimatorConfig) (s : EstimatorState) (task : ActiveTask)
    (now : ℚ) : TaskHistoryEntry × EstimatorState :=
  let actualMs := now - task.startTime
  let accuracy := calculateAccuracy task.estimatedMs actualMs
  let entry : TaskHistoryEntry :=
    { taskId := task.taskId
      category := task.category
      complexity := task.complexity
      estimatedMs := task.estimatedMs
      actualMs := actualMs
      accuracy := accuracy
      timestamp := now
      sessionId := "session_" ++ toString s.bootTime }
  let history0 := s.taskHistory ++ [entry]
  let history := if history0.length > 1000 then history0.drop (history0.length - 1000) else history0
  let existing := (s.learnedBaselines task.category task.complexity).getD
    { mean := task.estimatedMs, confidence := 0.3 }
  let updated := bayesianUpdate existing.mean existing.confidence actualMs cfg.learningRate
  (entry,
   { s with
     activeTasks := s.activeTasks.eraseP (fun t => decide (t.taskId = task.taskId))
     taskHistory := history
     learnedBaselines := fun c x =>
       if c = task.category ∧ x = task.complexity then
         some { mean := updated.1, confidence := updated.2 }
       else s.learnedBaselines c x })

/-- `completeTask` from task-estimator.ts.  The guard
`if (taskId && this.state.activeTasks?.[taskId])` takes the explicit-id
branch only when the id is truthy (non-empty) and present; otherwise the
code falls through to the "complete the most recent task" branch. -/
def completeTask (cfg : TaskEstimatorConfig) (s : EstimatorState)
    (taskId : Option String) (now : ℚ) :
    Option TaskHistoryEntry × EstimatorState :=
  let byId : Option ActiveTask :=
    match taskId with
    | some tid =>
      if tid = "" then none else s.activeTasks.find? (fun t => decide (t.taskId = tid))
    | none => none
  match byId with
  | some task =>
    let r := finishTask cfg s task now
    (some r.1, r.2)
  | none =>
    match s.activeTasks.getLast? with
    | some task =>
      let r := finishTask cfg s task now
      (some r.1, r.2)
    | none => (none, s)

/-- C2 (amended): for a call to `completeTask` with an explicit, non-empty
taskId: if an active task with that id exists, the returned history entry
records exactly that id and that task is removed from the active collection;
but if no active task has that id, the call behaves exactly like a call with
no id at all — it falls through to completing (and removing) the
most-recently-started active task, returning null only when no task is
active. -/
theorem c2_completeTask_explicit_id (cfg : TaskEstimatorConfig)
    (s : EstimatorState) (id : String) (now : ℚ) (hid : id ≠ "") :
    (∀ t, s.activeTasks.find? (fun t => decide (t.taskId = id)) = some t →
      (completeTask cfg s (some id) now).1.map (fun e => e.taskId) = some id ∧
        (completeTask cfg s (some id) now).2.activeTasks =
          s.activeTasks.eraseP (fun t' => decide (t'.taskId = id))) ∧
      (s.activeTasks.find? (fun t => decide (t.taskId = id)) = none →
        completeTask cfg s (some id) now = completeTask cfg s none now) := by
  constructor
  · intro t hfind
    have htid : t.taskId = id := by
      have := List.find?_some hfind
      simpa using this
    constructor
    · simp [completeTask, if_neg hid, hfind, finishTask, htid]
    · simp [completeTask, if_neg hid, hfind, finishTask, htid]
  · intro hfind
    simp [completeTask, if_neg hid, hfind]

/-- A concrete active task for the C2 scenario. -/
def c2task (i : String) : ActiveTask :=
  { taskId := i
    category := .coding
    complexity := .moderate
    startTime := 0
    estimatedMs := 600000 }

/-- Two active tasks "a" then "b" (insertion order), empty history. -/
def c2state : EstimatorState :=
  { activeTasks := [c2task "a", c2task "b"]
    taskHistory := []
    learnedBaselines := fun _ _ => none
    bootTime := 0 }

/-- C2 (counterexample): with active tasks "a" and "b", calling
`completeTask` with the explicit unknown id "zzz" does not return null and
does remove an active task: it completes the most-recently-started task "b". -/
theorem c2_unknown_id_counterexample :
    ((completeTask defaultEstimatorConfig c2state (some "zzz") 5).1.map
        (fun e => e.taskId)) = some "b" ∧
      ((completeTask defaultEstimatorConfig c2state (some "zzz") 5).2.activeTasks.map
        (fun t => t.taskId)) = ["a"] := by
  constructor <;>
    simp [completeTask, finishTask, c2state, c2task, List.find?, List.getLast?,
      List.eraseP]

/-- C2 witness: completing the existing explicit id "a" returns an entry for
"a" and removes exactly it. -/
theorem c2_completeTask_witness :
    (completeTask defaultEstimatorConfig c2state (some "a") 5).1.map
        (fun e => e.taskId) = some "a" ∧
      (completeTask defaultEstimatorConfig c2state (some "a") 5).2.activeTasks =
        c2state.activeTasks.eraseP (fun t' => decide (t'.taskId = "a")) :=
  (c2_completeTask_explicit_id defaultEstimatorConfig c2state "a" 5
      (by simp)).1 (c2task "a")
    (by simp [c2state, c2task, List.find?])

/-- C5 (counterexample): `calculateAccuracy 0 0 = 0` although the estimate
equals the actual (refuting "returns 1.0 exactly when est == actual" at
est = actual = 0), and the accuracy is 0 at both ratio 3 and ratio 4
(refuting strict decrease as the ratio departs from 1 on the overestimate
side). -/
theorem c5_accuracy_counterexample :
    calculateAccuracy 0 0 = 0 ∧
      calculateAccuracy 3000 1000 = 0 ∧
      calculateAccuracy 4000 1000 = 0 := by
  refine ⟨?_, ?_, ?_⟩ <;> norm_num [calculateAccuracy, max_def]

/-- C5 (amended): for `actual > 0`, `calculateAccuracy est actual = 1` iff
`est = actual`; the accuracy is 0 whenever `actual = 0` (even at
est = actual = 0); on the underestimate side (`0 ≤ e1 < e2 ≤ actual`) the
accuracy is strictly increasing toward 1 (accuracy = the ratio itself); on
the overestimate side it is strictly decreasing while it is still positive
(accuracy = `max 0 (1 - (ratio - 1) * 0.5)`, hitting 0 at ratio 3 and
staying 0 beyond). -/
theorem c5_accuracy_amended (est actual e1 e2 : ℚ) (ha : 0 < actual) :
    (calculateAccuracy est actual = 1 ↔ est = actual) ∧
      calculateAccuracy est 0 = 0 ∧
      (0 ≤ e1 → e1 < e2 → e2 ≤ actual →
        calculateAccuracy e1 actual < calculateAccuracy e2 actual) ∧
      (actual ≤ e1 → e1 < e2 → 0 < calculateAccuracy e2 actual →
        calculateAccuracy e2 actual < calculateAccuracy e1 actual) ∧
      (actual ≤ est →
        calculateAccuracy est actual = max 0 (1 - (est / actual - 1) * 0.5)) ∧
      (0 ≤ est → est < actual → calculateAccuracy est actual = est / actual) := by
  have hne : actual ≠ 0 := ne_of_gt ha
  refine ⟨?_, by simp [calculateAccuracy], ?_, ?_, ?_, ?_⟩
  · unfold calculateAccuracy
    rw [if_neg hne]
    by_cases hr : est / actual ≥ 1
    · rw [if_pos hr]
      constructor
      · intro h
        have h2 : est / actual = 1 := by
          rcases max_cases (0 : ℚ) (1 - (est / actual - 1) * 0.5) with ⟨he, _⟩ | ⟨he, _⟩
          · rw [he] at h
            norm_num at h
          · rw [he] at h
            linarith
        field_simp at h2
        exact h2
      · intro h
        subst h
        rw [div_self hne]
        norm_num
    · rw [if_neg hr]
      push_neg at hr
      constructor
      · intro h
        have hlt : max 0 (est / actual) < 1 := max_lt (by norm_num) hr
        rw [h] at hlt
        norm_num at hlt
      · intro h
        subst h
        rw [div_self hne] at hr
        norm_num at hr
  · intro h0 h12 h2a
    have h1a : e1 < actual := lt_of_lt_of_le h12 h2a
    have r1lt : e1 / actual < 1 := (div_lt_one ha).mpr h1a
    have hacc1 : calculateAccuracy e1 actual = e1 / actual := by
      unfold calculateAccuracy
      rw [if_neg hne, if_neg (not_le.mpr r1lt), max_eq_right (div_nonneg h0 ha.le)]
    rcases eq_or_lt_of_le h2a with heq | hlt
    · have hacc2 : calculateAccuracy e2 actual = 1 := by
        unfold calculateAccuracy
        rw [if_neg hne, heq, div_self hne]
        norm_num
      rw [hacc1, hacc2]
      exact r1lt
    · have r2lt : e2 / actual < 1 := (div_lt_one ha).mpr hlt
      have hacc2 : calculateAccuracy e2 actual = e2 / actual := by
        unfold calculateAccuracy
        rw [if_neg hne, if_neg (not_le.mpr r2lt),
          max_eq_right (div_nonneg (le_trans h0 h12.le) ha.le)]
      rw [hacc1, hacc2]
      exact (div_lt_div_iff_of_pos_right ha).mpr h12
  · intro h1 h12 hpos
    have hrlt : e1 / actual < e2 / actual := (div_lt_div_iff_of_pos_right ha).mpr h12
    have r1ge : (1 : ℚ) ≤ e1 / actual := (one_le_div ha).mpr h1
    have r2ge : (1 : ℚ) ≤ e2 / actual := le_trans r1ge hrlt.le
    have hacc2eq : calculateAccuracy e2 actual =
        max 0 (1 - (e2 / actual - 1) * 0.5) := by
      unfold calculateAccuracy
      rw [if_neg hne, if_pos (ge_iff_le.mpr r2ge)]
    have hinner : 0 < 1 - (e2 / actual - 1) * 0.5 := by
      by_contra hcon
      push_neg at hcon
      rw [hacc2eq, max_eq_left hcon] at hpos
      exact lt_irrefl 0 hpos
    have hacc1ge : 1 - (e1 / actual - 1) * 0.5 ≤ calculateAccuracy e1 actual := by
      unfold calculateAccuracy
      rw [if_neg hne, if_pos (ge_iff_le.mpr r1ge)]
      exact le_max_right _ _
    calc calculateAccuracy e2 actual = 1 - (e2 / actual - 1) * 0.5 := by
          rw [hacc2eq, max_eq_right hinner.le]
      _ < 1 - (e1 / actual - 1) * 0.5 := by linarith
      _ ≤ calculateAccuracy e1 actual := hacc1ge
  · intro h
    unfold calculateAccuracy
    rw [if_neg hne, if_pos (ge_iff_le.mpr ((one_le_div ha).mpr h))]
  · intro h0 h
    unfold calculateAccuracy
    rw [if_neg hne, if_neg (not_le.mpr ((div_lt_one ha).mpr h)),
      max_eq_right (div_nonneg h0 ha.le)]

/-- C5 witness: at est = actual = 2 the accuracy is exactly 1. -/
theorem c5_accuracy_witness : calculateAccuracy 2 2 = 1 :=
  (c5_accuracy_amended 2 2 0 1 (by norm_num)).1.mpr rfl

/-- The recency weight of a history entry in `calculateConfidence`:
`Math.exp(-ageDays / decayDays)` with `ageDays = (now - timestamp)/MS_PER_DAY`. -/
noncomputable def entryWeight (decayDays now : ℚ) (e : TaskHistoryEntry) : ℝ :=
  Real.exp (-((((now - e.timestamp) / MS_PER_DAY : ℚ) : ℝ) / (decayDays : ℝ)))

/-- The history filter shared by `calculateConfidence` and `estimate`. -/
def relevantFilter (category : TaskCategory) (complexity : TaskComplexity)
    (history : List TaskHistoryEntry) : List TaskHistoryEntry :=
  history.filter (fun h =>
    decide (h.category = category) && decide (h.complexity = complexity))

/-- `calculateConfidence` from confidence.ts. -/
noncomputable def calculateConfidence (history : List TaskHistoryEntry)
    (category : TaskCategory) (complexity : TaskComplexity)
    (minSamples decayDays : ℚ) (now : ℚ) : ℝ :=
  let relevant := relevantFilter category complexity history
  if relevant.length = 0 then 0.3
  else if (relevant.length : ℚ) < minSamples then
    0.3 + ((relevant.length : ℝ) / (minSamples : ℝ)) * 0.2
  else
    let weightedAccuracySum :=
      (relevant.map (fun e => (e.accuracy : ℝ) * entryWeight decayDays now e)).sum
    let weightSum := (relevant.map (fun e => entryWeight decayDays now e)).sum
    let weightedAccuracy :=
      if 0 < weightSum then weightedAccuracySum / weightSum else 0.5
    let sampleBoost := min 0.2 ((relevant.length : ℝ) * 0.02)
    min 0.95 (0.5 + weightedAccuracy * 0.3 + sampleBoost)

/-- The fragment of JavaScript's IEEE-754 number domain reachable in the
variance path of `estimate`: NaN, the two infinities, and finite values
(modelled as exact reals; overflow of finite values is not modelled). -/
inductive JSVal where
  | nan
  | posInf
  | negInf
  | fin (x : ℝ)

/-- JavaScript division of two finite numbers: a finite quotient when the
divisor is nonzero; `0/0` is NaN; otherwise a signed infinity. -/
noncomputable def jsDivFin (a b : ℝ) : JSVal :=
  if b ≠ 0 then .fin (a / b)
  else if a = 0 then .nan
  else if a > 0 then .posInf
  else .negInf

/-- `1 + v` in JavaScript: NaN and the infinities absorb the addition. -/
def jsAddOneTo : JSVal → JSVal
  | .nan => .nan
  | .posInf => .posInf
  | .negInf => .negInf
  | .fin x => .fin (1 + x)

/-- `a / v` for finite `a`: NaN propagates, dividing by an infinity gives
(signed, collapsed) zero, finite division follows `jsDivFin`. -/
noncomputable def jsDivFinBy (a : ℝ) : JSVal → JSVal
  | .nan => .nan
  | .posInf => .fin 0
  | .negInf => .fin 0
  | .fin b => jsDivFin a b

/-- `a * v` for finite `a`: NaN propagates; `0 * ∞` is NaN; otherwise the
IEEE sign rules. -/
noncomputable def jsMulFinBy (a : ℝ) : JSVal → JSVal
  | .nan => .nan
  | .posInf => if a > 0 then .posInf else if a < 0 then .negInf else .nan
  | .negInf => if a > 0 then .negInf else if a < 0 then .posInf else .nan
  | .fin b => .fin (a * b)

/-- `Math.round` on a JavaScript number: NaN and the infinities pass
through unchanged. -/
noncomputable def jsRoundVal : JSVal → JSVal
  | .nan => .nan
  | .posInf => .posInf
  | .negInf => .negInf
  | .fin x => .fin ((⌊x + 1/2⌋ : ℤ) : ℝ)

/-- JavaScript `<=` on numbers: false whenever either side is NaN. -/
def jsLe : JSVal → JSVal → Prop
  | .nan, _ => False
  | _, .nan => False
  | .negInf, _ => True
  | _, .posInf => True
  | .posInf, _ => False
  | .fin _, .negInf => False
  | .fin a, .fin b => a ≤ b

/-- The local `mean` of `calculateVariance`. -/
noncomputable def meanOf (l : List ℝ) : ℝ := l.sum / (l.length : ℝ)

/-- The local `variance` (of the squared diffs) of `calculateVariance`. -/
noncomputable def varianceOf (l : List ℝ) : ℝ :=
  (l.map (fun v => (v - meanOf l) ^ 2)).sum / (l.length : ℝ)

/-- `calculateVariance` from confidence.ts: the coefficient of variation
`Math.sqrt(variance) / mean` of the actual durations, with the 0.5 "high
uncertainty" sentinel below two samples.  The final division is JavaScript
division: when every actual duration is 0 the mean is 0 and `sqrt(0)/0` is
NaN (and a zero-mean history with nonzero variance gives an infinity). -/
noncomputable def calculateVariance (history : List TaskHistoryEntry) : JSVal :=
  if history.length < 2 then .fin 0.5
  else
    jsDivFin (Real.sqrt (varianceOf (history.map (fun h => (h.actualMs : ℝ)))))
      (meanOf (history.map (fun h => (h.actualMs : ℝ))))

/-- `getBaseline` from task-estimator.ts: learned mean when its confidence
exceeds 0.5, else the static default table. -/
def getBaseline (baselines : TaskCategory → TaskComplexity → Option Baseline)
    (category : TaskCategory) (complexity : TaskComplexity) : ℚ :=
  match baselines category complexity with
  | some learned =>
    if learned.confidence > 0.5 then learned.mean
    else BASE_DURATION_MS category * COMPLEXITY_MULTIPLIERS complexity
  | none => BASE_DURATION_MS category * COMPLEXITY_MULTIPLIERS complexity

/-- The estimator's `DurationEstimate` output: the rounded millisecond
fields are JavaScript numbers (NaN propagates into them through the
variance factor), the confidence is real-valued. -/
structure DurationEstimateR where
  minimumMs : JSVal
  expectedMs : JSVal
  maximumMs : JSVal
  confidence : ℝ
  basedOnSamples : ℕ
  category : TaskCategory
  complexity : TaskComplexity

/-- `estimate` from task-estimator.ts. -/
noncomputable def estimate (cfg : TaskEstimatorConfig) (s : EstimatorState)
    (category : TaskCategory) (complexity : TaskComplexity) (now : ℚ) :
    DurationEstimateR :=
  let relevantHistory := relevantFilter category complexity s.taskHistory
  let baseline := getBaseline s.learnedBaselines category complexity
  let variance := calculateVariance relevantHistory
  let confidence := calculateConfidence relevantHistory category complexity
    cfg.minSamplesForEstimate cfg.confidenceDecayDays now
  let varianceFactor := jsAddOneTo variance
  { minimumMs := jsRoundVal (jsDivFinBy (baseline : ℝ) varianceFactor)
    expectedMs := jsRoundVal (.fin ((baseline : ℚ) : ℝ))
    maximumMs := jsRoundVal (jsMulFinBy (baseline : ℝ) varianceFactor)
    confidence := confidence
    basedOnSamples := relevantHistory.length
    category := category
    complexity := complexity }

theorem BASE_DURATION_MS_pos (c : TaskCategory) : 0 < BASE_DURATION_MS c := by
  cases c <;> norm_num [BASE_DURATION_MS]

theorem COMPLEXITY_MULTIPLIERS_pos (x : TaskComplexity) :
    0 < COMPLEXITY_MULTIPLIERS x := by
  cases x <;> norm_num [COMPLEXITY_MULTIPLIERS]

theorem getBaseline_nonneg (baselines : TaskCategory → TaskComplexity → Option Baseline)
    (category : TaskCategory) (complexity : TaskComplexity)
    (hbase : ∀ c x b, baselines c x = some b → 0 ≤ b.mean) :
    0 ≤ getBaseline baselines category complexity := by
  unfold getBaseline
  cases hb : baselines category complexity with
  | none =>
    exact le_of_lt (mul_pos (BASE_DURATION_MS_pos category) (COMPLEXITY_MULTIPLIERS_pos complexity))
  | some learned =>
    show 0 ≤ (if learned.confidence > 0.5 then learned.mean
      else BASE_DURATION_MS category * COMPLEXITY_MULTIPLIERS complexity)
    by_cases hc : learned.confidence > 0.5
    · rw [if_pos hc]
      exact hbase category complexity learned hb
    · rw [if_neg hc]
      exact le_of_lt (mul_pos (BASE_DURATION_MS_pos category) (COMPLEXITY_MULTIPLIERS_pos complexity))

/-- On the good path — fewer than two samples, or some strictly positive
actual duration among nonnegative ones — the coefficient of variation is a
finite nonnegative real. -/
theorem calculateVariance_fin (history : List TaskHistoryEntry)
    (hact : ∀ e ∈ history, 0 ≤ e.actualMs)
    (hgood : history.length < 2 ∨ ∃ e ∈ history, 0 < e.actualMs) :
    ∃ v : ℝ, calculateVariance history = .fin v ∧ 0 ≤ v := by
  unfold calculateVariance
  by_cases hlen : history.length < 2
  · rw [if_pos hlen]
    exact ⟨0.5, rfl, by norm_num⟩
  · rw [if_neg hlen]
    rcases hgood with h | ⟨e, he, hepos⟩
    · exact absurd h hlen
    · have hsum : (0 : ℝ) < (history.map (fun h => (h.actualMs : ℝ))).sum := by
        have hmem : ((e.actualMs : ℝ)) ∈ history.map (fun h => (h.actualMs : ℝ)) :=
          List.mem_map_of_mem _ he
        have hle : ((e.actualMs : ℝ)) ≤ (history.map (fun h => (h.actualMs : ℝ))).sum := by
          apply List.single_le_sum _ _ hmem
          intro x hx
          rcases List.mem_map.mp hx with ⟨y, hy, rfl⟩
          exact_mod_cast hact y hy
        have : (0 : ℝ) < (e.actualMs : ℝ) := by exact_mod_cast hepos
        linarith
      have hlenpos : (0 : ℝ) < ((history.map (fun h => (h.actualMs : ℝ))).length : ℝ) := by
        rw [List.length_map]
        have : 0 < history.length := by omega
        exact_mod_cast this
      have hmean : 0 < meanOf (history.map (fun h => (h.actualMs : ℝ))) :=
        div_pos hsum hlenpos
      refine ⟨Real.sqrt (varianceOf (history.map (fun h => (h.actualMs : ℝ)))) /
          meanOf (history.map (fun h => (h.actualMs : ℝ))), ?_,
        div_nonneg (Real.sqrt_nonneg _) hmean.le⟩
      unfold jsDivFin
      rw [if_pos (ne_of_gt hmean)]

theorem calculateConfidence_bounds (history : List TaskHistoryEntry)
    (category : TaskCategory) (complexity : TaskComplexity)
    (minSamples decayDays now : ℚ)
    (hacc : ∀ e ∈ history, 0 ≤ e.accuracy) :
    0 ≤ calculateConfidence history category complexity minSamples decayDays now ∧
      calculateConfidence history category complexity minSamples decayDays now ≤ 0.95 := by
  unfold calculateConfidence
  set relevant := relevantFilter category complexity history with hrel
  by_cases h0 : relevant.length = 0
  · rw [if_pos h0]
    norm_num
  · rw [if_neg h0]
    by_cases h1 : (relevant.length : ℚ) < minSamples
    · rw [if_pos h1]
      have hlen1 : 1 ≤ relevant.length := Nat.one_le_iff_ne_zero.mpr h0
      have hms : (1 : ℚ) ≤ (relevant.length : ℚ) := by exact_mod_cast hlen1
      have hmspos : (0 : ℝ) < (minSamples : ℝ) := by
        have : (1 : ℚ) < minSamples := lt_of_le_of_lt hms h1
        have : (0 : ℚ) < minSamples := by linarith
        exact_mod_cast this
      have hdiv0 : (0 : ℝ) ≤ (relevant.length : ℝ) / (minSamples : ℝ) :=
        div_nonneg (by positivity) hmspos.le
      have hdiv1 : (relevant.length : ℝ) / (minSamples : ℝ) ≤ 1 := by
        rw [div_le_one hmspos]
        have : ((relevant.length : ℚ) : ℝ) ≤ ((minSamples : ℚ) : ℝ) := by
          exact_mod_cast h1.le
        simpa using this
      constructor <;> nlinarith
    · rw [if_neg h1]
      have hwa : ∀ w : ℝ, w = (if 0 < (relevant.map (fun e => entryWeight decayDays now e)).sum then
          (relevant.map (fun e => (e.accuracy : ℝ) * entryWeight decayDays now e)).sum /
            (relevant.map (fun e => entryWeight decayDays now e)).sum else 0.5) → 0 ≤ w := by
        intro w hw
        subst hw
        split
        · apply div_nonneg
          · apply List.sum_nonneg
            intro x hx
            rcases List.mem_map.mp hx with ⟨e, he, rfl⟩
            have he' : e ∈ history := List.mem_of_mem_filter he
            have : (0 : ℚ) ≤ e.accuracy := hacc e he'
            have : (0 : ℝ) ≤ (e.accuracy : ℝ) := by exact_mod_cast this
            exact mul_nonneg this (Real.exp_pos _).le
          · next hpos => exact hpos.le
        · norm_num
      have hwa' := hwa _ rfl
      have hsb0 : (0 : ℝ) ≤ min 0.2 ((relevant.length : ℝ) * 0.02) := by
        apply le_min (by norm_num)
        positivity
      constructor
      · apply le_min (by norm_num)
        nlinarith
      · exact min_le_left _ _

/-- One zero-duration completion of (coding, moderate): `actualMs = 0`, so
`calculateAccuracy` gave 0 — exactly what `completeTask` records when a task
is completed in the same millisecond it was started. -/
def c6entry (i : String) : TaskHistoryEntry :=
  { taskId := i
    category := .coding
    complexity := .moderate
    estimatedMs := 600000
    actualMs := 0
    accuracy := 0
    timestamp := 0
    sessionId := "s" }

/-- Estimator state after two zero-duration completions of the same pair. -/
def c6state : EstimatorState :=
  { activeTasks := []
    taskHistory := [c6entry "z1", c6entry "z2"]
    learnedBaselines := fun _ _ => none
    bootTime := 0 }

/-- C6 (counterexample): on the reachable history of two zero-duration
completions of (coding, moderate), the mean of the actuals is 0, so
`Math.sqrt(0)/0` is NaN; the NaN variance factor makes `minimumMs` and
`maximumMs` NaN while `expectedMs` is 600000, and the comparison
`minimumMs ≤ expectedMs` is false (NaN compares false), refuting the
invariant as originally claimed. -/
theorem c6_estimate_nan_counterexample :
    (estimate defaultEstimatorConfig c6state .coding .moderate 0).minimumMs = JSVal.nan ∧
      (estimate defaultEstimatorConfig c6state .coding .moderate 0).maximumMs = JSVal.nan ∧
      (estimate defaultEstimatorConfig c6state .coding .moderate 0).expectedMs =
        JSVal.fin 600000 ∧
      ¬ jsLe (estimate defaultEstimatorConfig c6state .coding .moderate 0).minimumMs
          (estimate defaultEstimatorConfig c6state .coding .moderate 0).expectedMs := by
  have hrel : relevantFilter .coding .moderate c6state.taskHistory =
      [c6entry "z1", c6entry "z2"] := by
    simp [relevantFilter, c6state, c6entry]
  have hvar : calculateVariance [c6entry "z1", c6entry "z2"] = JSVal.nan := by
    unfold calculateVariance
    rw [if_neg (by norm_num)]
    have hmean : meanOf ([c6entry "z1", c6entry "z2"].map (fun h => (h.actualMs : ℝ))) = 0 := by
      norm_num [meanOf, c6entry]
    have hvarz : varianceOf ([c6entry "z1", c6entry "z2"].map (fun h => (h.actualMs : ℝ))) = 0 := by
      norm_num [varianceOf, meanOf, c6entry]
    rw [hmean, hvarz, Real.sqrt_zero]
    unfold jsDivFin
    norm_num
  refine ⟨?_, ?_, ?_, ?_⟩
  · show jsRoundVal (jsDivFinBy _ (jsAddOneTo (calculateVariance
      (relevantFilter .coding .moderate c6state.taskHistory)))) = JSVal.nan
    rw [hrel, hvar]
    rfl
  · show jsRoundVal (jsMulFinBy _ (jsAddOneTo (calculateVariance
      (relevantFilter .coding .moderate c6state.taskHistory)))) = JSVal.nan
    rw [hrel, hvar]
    rfl
  · show jsRoundVal (.fin ((getBaseline c6state.learnedBaselines .coding .moderate : ℚ) : ℝ)) =
      JSVal.fin 600000
    have hbase : getBaseline c6state.learnedBaselines .coding .moderate = 600000 := by
      norm_num [getBaseline, c6state, BASE_DURATION_MS, COMPLEXITY_MULTIPLIERS]
    rw [hbase]
    unfold jsRoundVal
    norm_num
  · intro hle
    have hmin : (estimate defaultEstimatorConfig c6state .coding .moderate 0).minimumMs =
        JSVal.nan := by
      show jsRoundVal (jsDivFinBy _ (jsAddOneTo (calculateVariance
        (relevantFilter .coding .moderate c6state.taskHistory)))) = JSVal.nan
      rw [hrel, hvar]
      rfl
    rw [hmin] at hle
    exact hle

/-- C6 (amended): for every category, complexity, configuration and
estimator state whose task history is well-formed (nonnegative actual
durations and accuracies, as every entry produced by `completeTask` is) and
whose learned baselines have nonnegative means, the estimate satisfies
`minimumMs ≤ expectedMs ≤ maximumMs` and `0 ≤ confidence ≤ 0.95` —
provided the matching history is not on the NaN path, i.e. it has fewer
than two entries or some entry with a strictly positive actual duration
(otherwise the mean is 0, `sqrt(0)/0` is NaN, and the bound comparisons are
false, as the counterexample shows). -/
theorem c6_estimate_invariant (cfg : TaskEstimatorConfig) (s : EstimatorState)
    (category : TaskCategory) (complexity : TaskComplexity) (now : ℚ)
    (hacc : ∀ e ∈ s.taskHistory, 0 ≤ e.accuracy)
    (hact : ∀ e ∈ s.taskHistory, 0 ≤ e.actualMs)
    (hbase : ∀ c x b, s.learnedBaselines c x = some b → 0 ≤ b.mean)
    (hgood : (relevantFilter category complexity s.taskHistory).length < 2 ∨
      ∃ e ∈ relevantFilter category complexity s.taskHistory, 0 < e.actualMs) :
    jsLe (estimate cfg s category complexity now).minimumMs
        (estimate cfg s category complexity now).expectedMs ∧
      jsLe (estimate cfg s category complexity now).expectedMs
        (estimate cfg s category complexity now).maximumMs ∧
      0 ≤ (estimate cfg s category complexity now).confidence ∧
      (estimate cfg s category complexity now).confidence ≤ 0.95 := by
  have hb : (0 : ℝ) ≤ ((getBaseline s.learnedBaselines category complexity : ℚ) : ℝ) := by
    exact_mod_cast getBaseline_nonneg s.learnedBaselines category complexity hbase
  obtain ⟨v, hv, hv0⟩ := calculateVariance_fin
    (relevantFilter category complexity s.taskHistory)
    (fun e he => hact e (List.mem_of_mem_filter he)) hgood
  have hconf := calculateConfidence_bounds (relevantFilter category complexity s.taskHistory)
    category complexity cfg.minSamplesForEstimate cfg.confidenceDecayDays now
    (fun e he => hacc e (List.mem_of_mem_filter he))
  have h1v : (0 : ℝ) < 1 + v := by linarith
  have hfac : jsAddOneTo (calculateVariance
      (relevantFilter category complexity s.taskHistory)) = .fin (1 + v) := by
    rw [hv]
    rfl
  set b := ((getBaseline s.learnedBaselines category complexity : ℚ) : ℝ) with hbdef
  have hmin : (estimate cfg s category complexity now).minimumMs =
      .fin ((⌊b / (1 + v) + 1/2⌋ : ℤ) : ℝ) := by
    show jsRoundVal (jsDivFinBy b (jsAddOneTo (calculateVariance
      (relevantFilter category complexity s.taskHistory)))) = _
    rw [hfac]
    show jsRoundVal (jsDivFin b (1 + v)) = _
    unfold jsDivFin
    rw [if_pos (ne_of_gt h1v)]
    rfl
  have hexp : (estimate cfg s category complexity now).expectedMs =
      .fin ((⌊b + 1/2⌋ : ℤ) : ℝ) := rfl
  have hmax : (estimate cfg s category complexity now).maximumMs =
      .fin ((⌊b * (1 + v) + 1/2⌋ : ℤ) : ℝ) := by
    show jsRoundVal (jsMulFinBy b (jsAddOneTo (calculateVariance
      (relevantFilter category complexity s.taskHistory)))) = _
    rw [hfac]
    rfl
  refine ⟨?_, ?_, hconf.1, hconf.2⟩
  · rw [hmin, hexp]
    show ((⌊b / (1 + v) + 1/2⌋ : ℤ) : ℝ) ≤ ((⌊b + 1/2⌋ : ℤ) : ℝ)
    have hd : b / (1 + v) ≤ b := div_le_self hb (by linarith)
    exact_mod_cast Int.floor_le_floor (by linarith)
  · rw [hexp, hmax]
    show ((⌊b + 1/2⌋ : ℤ) : ℝ) ≤ ((⌊b * (1 + v) + 1/2⌋ : ℤ) : ℝ)
    have hm : b ≤ b * (1 + v) := le_mul_of_one_le_right hb (by linarith)
    exact_mod_cast Int.floor_le_floor (by linarith)

/-- An estimator state with no history, no active tasks, no baselines. -/
def emptyEstimatorState : EstimatorState :=
  { activeTasks := []
    taskHistory := []
    learnedBaselines := fun _ _ => none
    bootTime := 0 }

/-- C6 witness: the invariant holds concretely for the empty history
(baseline 600000, variance sentinel 0.5, confidence 0.3). -/
theorem c6_estimate_invariant_witness :
    jsLe (estimate defaultEstimatorConfig emptyEstimatorState .coding .moderate 5).minimumMs
        (estimate defaultEstimatorConfig emptyEstimatorState .coding .moderate 5).expectedMs ∧
      jsLe (estimate defaultEstimatorConfig emptyEstimatorState .coding .moderate 5).expectedMs
        (estimate defaultEstimatorConfig emptyEstimatorState .coding .moderate 5).maximumMs ∧
      0 ≤ (estimate defaultEstimatorConfig emptyEstimatorState .coding .moderate 5).confidence ∧
      (estimate defaultEstimatorConfig emptyEstimatorState .coding .moderate 5).confidence ≤ 0.95 :=
  c6_estimate_invariant defaultEstimatorConfig emptyEstimatorState .coding .moderate 5
    (by intro e he; simp [emptyEstimatorState] at he)
    (by intro e he; simp [emptyEstimatorState] at he)
    (by intro c x b hb; simp [emptyEstimatorState] at hb)
    (Or.inl (by simp [relevantFilter, emptyEstimatorState]))

/-- Closed form of `calculateConfidence` (with the default `minSamples = 3`)
when every relevant entry has accuracy exactly 1: the weighted accuracy
cancels to 1 and only the sample count matters. -/
noncomputable def confAt1 (n : ℕ) : ℝ :=
  if n = 0 then 0.3
  else if (n : ℚ) < 3 then 0.3 + ((n : ℝ) / 3) * 0.2
  else min 0.95 (0.8 + min 0.2 ((n : ℝ) * 0.02))

theorem calculateConfidence_of_all_ones (history : List TaskHistoryEntry)
    (category : TaskCategory) (complexity : TaskComplexity) (decayDays now : ℚ)
    (hacc : ∀ x ∈ relevantFilter category complexity history, x.accuracy = 1) :
    calculateConfidence history category complexity 3 decayDays now =
      confAt1 (relevantFilter category complexity history).length := by
  unfold calculateConfidence confAt1
  set relevant := relevantFilter category complexity history with hr
  by_cases h0 : relevant.length = 0
  · rw [if_pos h0, if_pos h0]
  · rw [if_neg h0, if_neg h0]
    by_cases h1 : (relevant.length : ℚ) < 3
    · rw [if_pos h1, if_pos h1]
      push_cast
      ring
    · rw [if_neg h1, if_neg h1]
      have hsum : (relevant.map (fun e => (e.accuracy : ℝ) * entryWeight decayDays now e)).sum
          = (relevant.map (fun e => entryWeight decayDays now e)).sum := by
        congr 1
        apply List.map_congr_left
        intro x hx
        rw [hacc x hx]
        norm_num
      have hne : relevant ≠ [] := fun h => h0 (by simp [h])
      have hpos : 0 < (relevant.map (fun e => entryWeight decayDays now e)).sum := by
        apply List.sum_pos
        · intro x hx
          rcases List.mem_map.mp hx with ⟨e, he, rfl⟩
          exact Real.exp_pos _
        · simpa using hne
      simp only [hsum, if_pos hpos, div_self (ne_of_gt hpos)]
      norm_num

theorem confAt1_le_succ (n : ℕ) : confAt1 n ≤ confAt1 (n + 1) := by
  match n with
  | 0 => norm_num [confAt1]
  | 1 => norm_num [confAt1]
  | 2 => norm_num [confAt1, min_def]
  | (m + 3) =>
    have h3 : ¬((m + 3 : ℕ) : ℚ) < 3 := by push_cast; linarith [@Nat.cast_nonneg ℚ _ m]
    have h4 : ¬((m + 3 + 1 : ℕ) : ℚ) < 3 := by push_cast; linarith [@Nat.cast_nonneg ℚ _ m]
    simp only [confAt1]
    rw [if_neg (by omega : ¬(m + 3 = 0)), if_neg h3,
      if_neg (by omega : ¬(m + 3 + 1 = 0)), if_neg h4]
    apply min_le_min le_rfl
    apply add_le_add_left
    apply min_le_min le_rfl
    have hc : ((m + 3 : ℕ) : ℝ) ≤ ((m + 3 + 1 : ℕ) : ℝ) := by push_cast; linarith
    nlinarith

theorem confAt1_mono : Monotone confAt1 :=
  monotone_nat_of_le_succ confAt1_le_succ

theorem confAt1_le_cap (n : ℕ) : confAt1 n ≤ 0.95 := by
  unfold confAt1
  split_ifs with h0 h1
  · norm_num
  · have hq : ((n : ℕ) : ℝ) < 3 := by exact_mod_cast h1
    nlinarith
  · exact min_le_left _ _

/-- C4 (amended): with the default configuration, for a history whose
relevant entries all have accuracy exactly 1.0, appending one more completion
never decreases the confidence computed for that (category, complexity)
pair, and the confidence never exceeds 0.95 — but it attains 0.95 exactly
(from the eighth sample on) rather than staying strictly below it. -/
theorem c4_confidence_monotone_capped (history : List TaskHistoryEntry)
    (e : TaskHistoryEntry) (category : TaskCategory) (complexity : TaskComplexity)
    (decayDays now : ℚ)
    (hacc : ∀ x ∈ relevantFilter category complexity (history ++ [e]), x.accuracy = 1) :
    calculateConfidence history category complexity 3 decayDays now ≤
        calculateConfidence (history ++ [e]) category complexity 3 decayDays now ∧
      calculateConfidence (history ++ [e]) category complexity 3 decayDays now ≤ 0.95 := by
  have hsub : ∀ x ∈ relevantFilter category complexity history,
      x ∈ relevantFilter category complexity (history ++ [e]) := by
    intro x hx
    unfold relevantFilter at *
    rw [List.filter_append]
    exact List.mem_append_left _ hx
  have hacc' : ∀ x ∈ relevantFilter category complexity history, x.accuracy = 1 :=
    fun x hx => hacc x (hsub x hx)
  rw [calculateConfidence_of_all_ones history category complexity decayDays now hacc',
    calculateConfidence_of_all_ones (history ++ [e]) category complexity decayDays now hacc]
  refine ⟨confAt1_mono ?_, confAt1_le_cap _⟩
  unfold relevantFilter
  rw [List.filter_append]
  simp

/-- The C4 scenario entry: accuracy exactly 1, completed at time 0. -/
def c4entry : TaskHistoryEntry :=
  { taskId := "t"
    category := .coding
    complexity := .moderate
    estimatedMs := 600000
    actualMs := 600000
    accuracy := 1
    timestamp := 0
    sessionId := "s" }

/-- C4 (counterexample): after 8 completions of (coding, moderate) with
accuracy exactly 1.0, the confidence equals 0.95 exactly
(`0.5 + 0.3 + min 0.2 0.16 = 0.96`, capped), refuting "stays strictly below
0.95". -/
theorem c4_confidence_cap_attained_counterexample :
    calculateConfidence (List.replicate 8 c4entry) .coding .moderate 3 30 0 = 0.95 := by
  rw [calculateConfidence_of_all_ones (List.replicate 8 c4entry) .coding .moderate 30 0
    (by intro x hx
        unfold relevantFilter at hx
        have := List.mem_of_mem_filter hx
        rcases List.eq_of_mem_replicate this with rfl
        rfl)]
  have hlen : (relevantFilter .coding .moderate (List.replicate 8 c4entry)).length = 8 := by
    unfold relevantFilter
    rw [List.filter_eq_self.mpr]
    · simp
    · intro a ha
      rcases List.eq_of_mem_replicate ha with rfl
      rfl
  rw [hlen]
  norm_num [confAt1, min_def]

/-- C4 witness: going from no completions to one completion with accuracy 1
does not decrease the confidence and stays within the 0.95 cap. -/
theorem c4_confidence_monotone_witness :
    calculateConfidence [] .coding .moderate 3 30 0 ≤
        calculateConfidence [c4entry] .coding .moderate 3 30 0 ∧
      calculateConfidence [c4entry] .coding .moderate 3 30 0 ≤ 0.95 := by
  have h := c4_confidence_monotone_capped [] c4entry .coding .moderate 30 0
    (by intro x hx
        unfold relevantFilter at hx
        have := List.mem_of_mem_filter hx
        simp only [List.nil_append, List.mem_singleton] at this
        rcases this with rfl
        rfl)
  simpa using h

/-- `exponentialDecay` from time-math.ts:
`initialValue * Math.pow(0.5, elapsedMs / halfLifeMs)`. -/
noncomputable def exponentialDecay (initialValue halfLifeMs elapsedMs : ℝ) : ℝ :=
  initialValue * (0.5 : ℝ) ^ (elapsedMs / halfLifeMs)

/-- C8: for every positive half-life, `exponentialDecay 1 h h = 0.5` exactly,
and for fixed positive half-life the decay score `0.5 ^ (age / h)` is
strictly decreasing in the age. -/
theorem c8_exponentialDecay (halfLifeMs : ℝ) (h : 0 < halfLifeMs) :
    exponentialDecay 1 halfLifeMs halfLifeMs = 0.5 ∧
      ∀ a1 a2 : ℝ, a1 < a2 →
        exponentialDecay 1 halfLifeMs a2 < exponentialDecay 1 halfLifeMs a1 := by
  constructor
  · unfold exponentialDecay
    rw [div_self (ne_of_gt h), one_mul, Real.rpow_one]
  · intro a1 a2 ha
    unfold exponentialDecay
    rw [one_mul, one_mul]
    exact Real.rpow_lt_rpow_of_exponent_gt (by norm_num) (by norm_num)
      ((div_lt_div_iff_of_pos_right h).mpr ha)

/-- C8 witness: at half-life 2 the decay after one half-life is exactly 0.5. -/
theorem c8_exponentialDecay_witness : exponentialDecay 1 2 2 = 0.5 :=
  (c8_exponentialDecay 2 (by norm_num)).1

/-- `TemporalMemoryEntry` from types.ts. -/
structure TemporalMemoryEntry where
  id : String
  content : String
  timestamp : ℚ
  decayScore : ℚ
  relevanceScore : ℚ
  accessCount : ℕ
  lastAccessedAt : ℚ
  associatedTasks : List String
deriving DecidableEq, Repr

/-- Memory configuration fields read by the search/decay logic. -/
structure TemporalMemoryConfig where
  decayHalfLifeDays : ℚ
  relevanceBoostRecent : ℚ
deriving DecidableEq, Repr

/-- Constructor defaults: half-life 7 days, recency boost 1.5. -/
def defaultMemoryConfig : TemporalMemoryConfig :=
  { decayHalfLifeDays := 7, relevanceBoostRecent := 1.5 }

/-- `addEntry` from temporal-memory.ts: a fresh entry with `decayScore` 1.0,
`relevanceScore` 1.0, `accessCount` 0.  The md5-derived id (a deterministic
hash of content + timestamp) is externalized as a parameter.  The store is a
JavaScript object keyed by id whose `Object.values` order is insertion
order, embedded as an insertion-ordered list with unique ids. -/
def addEntry (s : List TemporalMemoryEntry) (content : String) (now : ℚ)
    (id : String) : TemporalMemoryEntry × List TemporalMemoryEntry :=
  let entry : TemporalMemoryEntry :=
    { id := id
      content := content
      timestamp := now
      decayScore := 1.0
      relevanceScore := 1.0
      accessCount := 0
      lastAccessedAt := now
      associatedTasks := [] }
  (entry, s ++ [entry])

/-- A `\w` word character: alphanumeric or underscore. -/
def isWordChar (c : Char) : Bool := c.isAlphanum || c = '_'

/-- Split a character list into maximal runs of word characters. -/
def splitWords : List Char → List Char → List (List Char)
  | [], cur => if cur = [] then [] else [cur.reverse]
  | c :: rest, cur =>
    if isWordChar c then splitWords rest (c :: cur)
    else if cur = [] then splitWords rest [] else cur.reverse :: splitWords rest []

/-- `tokenize` from temporal-memory.ts: lowercase, replace every
non-word/non-space character by a space, split on whitespace, keep tokens of
length > 2.  The pipeline partitions the lowercased text into maximal runs
of `\w` characters before the length filter. -/
def tokenize (text : String) : List String :=
  ((splitWords (text.toList.map Char.toLower) []).map (fun w => String.mk w)).filter
    (fun t => t.length > 2)

/-- `MemorySearchOptions` with its defaults. -/
structure MemorySearchOptions where
  maxAgeDays : Option ℚ := none
  limit : ℕ := 10
  minRelevance : ℚ := 0.1
deriving DecidableEq, Repr

/-- The age filter cutoff: `maxAgeDays ? now - maxAgeDays*MS_PER_DAY : 0`
(a present but zero `maxAgeDays` is falsy). -/
def searchCutoff (opts : MemorySearchOptions) (now : ℚ) : ℚ :=
  match opts.maxAgeDays with
  | some d => if d = 0 then 0 else now - d * MS_PER_DAY
  | none => 0

/-- The relevance scoring step of `search` applied to one (copied) entry,
given the tokenized query. -/
def scoreEntry (cfg : TemporalMemoryConfig) (queryTerms : List String)
    (e : TemporalMemoryEntry) : TemporalMemoryEntry :=
  let contentTerms := tokenize e.content
  let matchCount := (queryTerms.filter (fun qt =>
    contentTerms.any (fun ct =>
      decide (List.IsInfix qt.toList ct.toList) ||
        decide (List.IsInfix ct.toList qt.toList)))).length
  let baseRelevance : ℚ :=
    if queryTerms.length > 0 then (matchCount : ℚ) / (queryTerms.length : ℚ) else 0
  let recencyBoost := if e.decayScore > 0.8 then cfg.relevanceBoostRecent else 1.0
  let accessBoost : ℚ := 1 + min 0.2 ((e.accessCount : ℚ) * 0.02)
  { e with relevanceScore := baseRelevance * recencyBoost * e.decayScore * accessBoost }

/-- The ranked search results (the copies handed back to the caller), before
the access-bookkeeping side effect.  The decay recomputation
`exponentialDecay(1.0, halfLifeMs, ageMs)` is abstracted as the parameter
`decay : ageMs → score`, since `0.5 ^ (age/halfLife)` is transcendental;
every theorem below holds for each such function. -/
def searchResults (cfg : TemporalMemoryConfig) (decay : ℚ → ℚ)
    (s : List TemporalMemoryEntry) (query : String) (opts : MemorySearchOptions)
    (now : ℚ) : List TemporalMemoryEntry :=
  let entries1 := s.filter (fun e => decide (e.timestamp ≥ searchCutoff opts now))
  let entries2 := entries1.map (fun e => { e with decayScore := decay (now - e.timestamp) })
  let queryTerms := tokenize query
  let entries3 := entries2.map (scoreEntry cfg queryTerms)
  let entries4 := entries3.filter (fun e => decide (e.relevanceScore ≥ opts.minRelevance))
  let sorted := entries4.mergeSort (fun a b => decide (b.relevanceScore ≤ a.relevanceScore))
  sorted.take opts.limit

/-- The access bookkeeping `accessCount++; lastAccessedAt = now` on one
stored entry. -/
def bumpAccess (now : ℚ) (e : TemporalMemoryEntry) : TemporalMemoryEntry :=
  { e with accessCount := e.accessCount + 1, lastAccessedAt := now }

/-- The side-effect loop of `search`: for each returned result, update the
stored entry with that id. -/
def recordAccess (s : List TemporalMemoryEntry)
    (results : List TemporalMemoryEntry) (now : ℚ) : List TemporalMemoryEntry :=
  results.foldl (fun acc r => acc.map (fun e => if e.id = r.id then bumpAccess now e else e)) s

/-- `search` from temporal-memory.ts: returns the ranked copies and the
mutated store. -/
def search (cfg : TemporalMemoryConfig) (decay : ℚ → ℚ)
    (s : List TemporalMemoryEntry) (query : String) (opts : MemorySearchOptions)
    (now : ℚ) : List TemporalMemoryEntry × List TemporalMemoryEntry :=
  let results := searchResults cfg decay s query opts now
  (results, recordAccess s results now)

/-- `prune` from temporal-memory.ts: remove entries that are (older than the
cutoff or have stored decayScore < 0.1) and have accessCount at or below the
threshold; returns the removed count and the kept entries. -/
def prune (s : List TemporalMemoryEntry) (maxAgeDays : ℚ) (minAccessCount : ℕ)
    (now : ℚ) : ℕ × List TemporalMemoryEntry :=
  let cutoff := now - maxAgeDays * MS_PER_DAY
  let kept := s.filter (fun e =>
    !((decide (e.timestamp < cutoff) && decide (e.accessCount ≤ minAccessCount)) ||
      (decide (e.decayScore < 0.1) && decide (e.accessCount ≤ minAccessCount))))
  (s.length - kept.length, kept)

theorem recordAccess_eq_map (now : ℚ) :
    ∀ (results : List TemporalMemoryEntry),
      (results.map (fun r => r.id)).Nodup →
      ∀ s : List TemporalMemoryEntry,
        recordAccess s results now =
          s.map (fun e =>
            if e.id ∈ results.map (fun r => r.id) then bumpAccess now e else e) := by
  intro results
  induction results with
  | nil =>
    intro _ s
    simp [recordAccess]
  | cons r rs ih =>
    intro hnd s
    rw [List.map_cons, List.nodup_cons] at hnd
    obtain ⟨hr, hrs⟩ := hnd
    show recordAccess (s.map fun e => if e.id = r.id then bumpAccess now e else e) rs now = _
    rw [ih hrs, List.map_map]
    apply List.map_congr_left
    intro e _
    simp only [Function.comp]
    by_cases he : e.id = r.id
    · rw [if_pos he]
      have hb : (bumpAccess now e).id = e.id := rfl
      rw [if_neg (by rw [hb, he]; exact hr),
        if_pos (by rw [List.map_cons, he]; exact List.mem_cons_self _ _)]
    · rw [if_neg he]
      by_cases he2 : e.id ∈ rs.map (fun r => r.id)
      · rw [if_pos he2, if_pos (by rw [List.map_cons]; exact List.mem_cons_of_mem _ he2)]
      · rw [if_neg he2,
          if_neg (by rw [List.map_cons, List.mem_cons]; push_neg; exact ⟨he, he2⟩)]

theorem searchResults_ids_nodup (cfg : TemporalMemoryConfig) (decay : ℚ → ℚ)
    (s : List TemporalMemoryEntry) (query : String) (opts : MemorySearchOptions)
    (now : ℚ) (hnd : (s.map (fun e => e.id)).Nodup) :
    ((searchResults cfg decay s query opts now).map (fun e => e.id)).Nodup := by
  unfold searchResults
  have hnd1 : ((s.filter (fun e => decide (e.timestamp ≥ searchCutoff opts now))).map
      (fun e => e.id)).Nodup :=
    hnd.sublist ((List.filter_sublist s).map _)
  have hids : (((s.filter (fun e => decide (e.timestamp ≥ searchCutoff opts now))).map
        (fun e => { e with decayScore := decay (now - e.timestamp) })).map
          (scoreEntry cfg (tokenize query))).map (fun e => e.id) =
      (s.filter (fun e => decide (e.timestamp ≥ searchCutoff opts now))).map
        (fun e => e.id) := by
    rw [List.map_map, List.map_map]
    rfl
  have hnd3 : ((((s.filter (fun e => decide (e.timestamp ≥ searchCutoff opts now))).map
      (fun e => { e with decayScore := decay (now - e.timestamp) })).map
        (scoreEntry cfg (tokenize query))).map (fun e => e.id)).Nodup := by
    rw [hids]
    exact hnd1
  have hnd4 := hnd3.sublist ((@List.filter_sublist TemporalMemoryEntry
    (fun e => decide (e.relevanceScore ≥ opts.minRelevance)) _).map _)
  have hnd5 : (((((s.filter (fun e => decide (e.timestamp ≥ searchCutoff opts now))).map
      (fun e => { e with decayScore := decay (now - e.timestamp) })).map
        (scoreEntry cfg (tokenize query))).filter
          (fun e => decide (e.relevanceScore ≥ opts.minRelevance))).mergeSort
            (fun a b => decide (b.relevanceScore ≤ a.relevanceScore))).map
              (fun e => e.id) |>.Nodup := by
    have hperm := (List.mergeSort_perm
      ((((s.filter (fun e => decide (e.timestamp ≥ searchCutoff opts now))).map
        (fun e => { e with decayScore := decay (now - e.timestamp) })).map
          (scoreEntry cfg (tokenize query))).filter
            (fun e => decide (e.relevanceScore ≥ opts.minRelevance)))
      (fun a b => decide (b.relevanceScore ≤ a.relevanceScore))).map (fun e => e.id)
    exact hperm.nodup_iff.mpr hnd4
  exact hnd5.sublist ((List.take_sublist _ _).map _)

/-- C7: for every store with unique ids, after a `search` call the mutated
store equals the old store with every entry whose id occurs among the
returned results updated to `accessCount + 1` and `lastAccessedAt = now`;
every entry not returned is kept identical. -/
theorem c7_search_access_bookkeeping (cfg : TemporalMemoryConfig) (decay : ℚ → ℚ)
    (s : List TemporalMemoryEntry) (query : String) (opts : MemorySearchOptions)
    (now : ℚ) (hnd : (s.map (fun e => e.id)).Nodup) :
    (search cfg decay s query opts now).2 =
      s.map (fun e =>
        if e.id ∈ (search cfg decay s query opts now).1.map (fun r => r.id) then
          { e with accessCount := e.accessCount + 1, lastAccessedAt := now }
        else e) :=
  recordAccess_eq_map now (searchResults cfg decay s query opts now)
    (searchResults_ids_nodup cfg decay s query opts now hnd) s

/-- A concrete stored entry for the memory witnesses. -/
def m0entry : TemporalMemoryEntry :=
  { id := "m0"
    content := "hello world"
    timestamp := 0
    decayScore := 1
    relevanceScore := 1
    accessCount := 0
    lastAccessedAt := 0
    associatedTasks := [] }

/-- C7 witness: the bookkeeping equation instantiated on a one-entry store. -/
theorem c7_search_access_bookkeeping_witness :
    (search defaultMemoryConfig (fun _ => 1) [m0entry] "hello" {} 0).2 =
      [m0entry].map (fun e =>
        if e.id ∈ (search defaultMemoryConfig (fun _ => 1) [m0entry] "hello" {} 0).1.map
            (fun r => r.id) then
          { e with accessCount := e.accessCount + 1, lastAccessedAt := 0 }
        else e) :=
  c7_search_access_bookkeeping defaultMemoryConfig (fun _ => 1) [m0entry] "hello" {} 0
    (by simp)

/-- C9: `search` mutates only `accessCount` and `lastAccessedAt` of the
returned entries: the stored id, content, timestamp, decayScore,
relevanceScore and associated tasks of every entry are unchanged.  In
particular, since `addEntry` stores `decayScore = 1.0` and search applies
the recomputed decay only to the returned copies, a store whose entries all
have stored decayScore 1 keeps it after any search, and `prune`'s
`decayScore < 0.1` criterion (which reads the stored value) never fires:
prune then removes exactly by the age criterion. -/
theorem c9_search_frame_decay (cfg : TemporalMemoryConfig) (decay : ℚ → ℚ)
    (s : List TemporalMemoryEntry) (query : String) (opts : MemorySearchOptions)
    (now : ℚ) (content id : String) (maxAgeDays : ℚ) (minAccessCount : ℕ)
    (hnd : (s.map (fun e => e.id)).Nodup)
    (hdecay1 : ∀ e ∈ s, e.decayScore = 1) :
    ((search cfg decay s query opts now).2.map
        (fun e => (e.id, e.content, e.timestamp, e.decayScore, e.relevanceScore,
          e.associatedTasks)) =
      s.map (fun e => (e.id, e.content, e.timestamp, e.decayScore, e.relevanceScore,
        e.associatedTasks))) ∧
      (addEntry s content now id).1.decayScore = 1 ∧
      (∀ e ∈ (search cfg decay s query opts now).2, e.decayScore = 1) ∧
      prune (search cfg decay s query opts now).2 maxAgeDays minAccessCount now =
        ((search cfg decay s query opts now).2.length -
            ((search cfg decay s query opts now).2.filter
              (fun e => !(decide (e.timestamp < now - maxAgeDays * MS_PER_DAY) &&
                decide (e.accessCount ≤ minAccessCount)))).length,
          (search cfg decay s query opts now).2.filter
            (fun e => !(decide (e.timestamp < now - maxAgeDays * MS_PER_DAY) &&
              decide (e.accessCount ≤ minAccessCount)))) := by
  have hmap : (search cfg decay s query opts now).2 =
      s.map (fun e =>
        if e.id ∈ (searchResults cfg decay s query opts now).map (fun r => r.id) then
          bumpAccess now e else e) :=
    recordAccess_eq_map now _ (searchResults_ids_nodup cfg decay s query opts now hnd) s
  have hd1 : ∀ e ∈ (search cfg decay s query opts now).2, e.decayScore = 1 := by
    intro e he
    rw [hmap] at he
    rcases List.mem_map.mp he with ⟨x, hx, rfl⟩
    by_cases h : x.id ∈ (searchResults cfg decay s query opts now).map (fun r => r.id)
    · rw [if_pos h]
      exact hdecay1 x hx
    · rw [if_neg h]
      exact hdecay1 x hx
  refine ⟨?_, by norm_num [addEntry], hd1, ?_⟩
  · rw [hmap, List.map_map]
    apply List.map_congr_left
    intro e _
    simp only [Function.comp]
    by_cases h : e.id ∈ (searchResults cfg decay s query opts now).map (fun r => r.id)
    · rw [if_pos h]
      rfl
    · rw [if_neg h]
  · have hkept : (search cfg decay s query opts now).2.filter
        (fun e => !((decide (e.timestamp < now - maxAgeDays * MS_PER_DAY) &&
            decide (e.accessCount ≤ minAccessCount)) ||
          (decide (e.decayScore < 0.1) && decide (e.accessCount ≤ minAccessCount)))) =
        (search cfg decay s query opts now).2.filter
          (fun e => !(decide (e.timestamp < now - maxAgeDays * MS_PER_DAY) &&
            decide (e.accessCount ≤ minAccessCount))) := by
      apply List.filter_congr
      intro e he
      rw [hd1 e he]
      have hfalse : ¬((1 : ℚ) < 0.1) := by norm_num
      simp [hfalse]
    simp only [prune]
    rw [hkept]

/-- C9 witness: projection of the frame theorem on a one-entry store —
`addEntry` stores decayScore 1. -/
theorem c9_search_frame_decay_witness :
    (addEntry [m0entry] "c" 0 "m1").1.decayScore = 1 :=
  (c9_search_frame_decay defaultMemoryConfig (fun _ => 1) [m0entry] "q" {} 0 "c" "m1"
      30 0 (by simp)
      (by intro e he
          simp only [List.mem_singleton] at he
          subst he
          rfl)).2.1

end TemporalCognition
